import Mathlib

/-!
Shallow embedding of the nono-wallet service (src/app.py).

The store is the pair of SQL tables created by ensure_schema: `wallets`
(id TEXT PRIMARY KEY, balance NUMERIC, plus the upgraded optional unique
`name` column) and `transactions` (id TEXT PRIMARY KEY, wallet_id, type,
amount NUMERIC, created_at, plus the upgraded `idem_key` column with a
unique index where not null).  Amounts and balances are embedded as exact
rationals (the NUMERIC column values); timestamps as naturals.  The route
handlers wallet_create, wallet_deposit, wallet_withdraw, wallet_balance,
transactions_list and transactions_export are embedded as pure functions
from a store and the request data to the new store and the JSON/CSV
response.  Non-deterministic inputs of the handlers (uuid4 ids, the
utcnow timestamp, the generated wallet name) are passed as arguments.

The embedding is sequential: each handler body is one `engine.begin()`
unit executed alone.  The duplicate-idem_key exception branches of
wallet_deposit/wallet_withdraw (src/app.py lines 278-283 and 322-327)
fire only when a concurrent insert or a uuid collision races the check
on the same keys; with caller-supplied fresh transaction ids they are
unreachable sequentially and the insert is embedded as a plain append.
Primary-key violations on wallet ids are semantically relevant even
sequentially (a second INSERT of the same wallet id aborts the unit), so
wallet_create keeps that guard.  Foreign keys follow the SQLite fallback
engine the module builds when DATABASE_URL is unset (src/app.py line 29):
SQLite does not enforce them by default, so an insert of a transaction
row for an absent wallet succeeds.
-/

namespace NonoWallet

/-- A row of the `wallets` table. -/
structure Wallet where
  id : String
  name : Option String
  balance : ℚ
deriving DecidableEq

/-- A row of the `transactions` table. -/
structure Txn where
  id : String
  wallet_id : String
  type : String
  amount : ℚ
  created_at : ℕ
  idem_key : Option String
deriving DecidableEq

/-- The two tables, rows in insertion order. -/
structure Store where
  wallets : List Wallet
  transactions : List Txn
deriving DecidableEq

def emptyStore : Store := ⟨[], []⟩

/-- SELECT ... FROM wallets WHERE id=:id -/
def findWallet (s : Store) (wid : String) : Option Wallet :=
  s.wallets.find? (fun w => w.id == wid)

/-- SELECT balance FROM wallets WHERE id=:id (none when the row is absent). -/
def balanceOf (s : Store) (wid : String) : Option ℚ :=
  (findWallet s wid).map Wallet.balance

/-- The `{"id": ..., "balance": ...}` object of the JSON responses. -/
structure WalletView where
  id : String
  balance : ℚ
deriving DecidableEq

/-- Responses of the deposit and withdraw routes: a 400 error body,
the plain `{"ok": true}` success, or the idempotent-replay success
`{"ok": true, "idempotent": true, "wallet": {...}}`. -/
inductive DWResp where
  | badRequest (error : String)
  | okPlain
  | okIdempotent (wallet : WalletView)
deriving DecidableEq

/-- The balance carried by a deposit/withdraw response, when it carries one. -/
def reportedBalance : DWResp → Option ℚ
  | .okIdempotent w => some w.balance
  | _ => none

/-- The `wallet` object returned by wallet_create. -/
structure CreateResp where
  id : String
  name : String
  balance : ℚ
deriving DecidableEq

/-- The name the handler stores, `data.get("name") or "wallet-..."`:
an absent or empty name falls back to the generated one. -/
def createName (nameArg : Option String) (genName : String) : String :=
  match nameArg with
  | some n => if n = "" then genName else n
  | none => genName

/-- wallet_create (src/app.py lines 213-246): insert a wallet row with
balance 0 and a `deposit` transaction of amount 0 in one unit, then set the
name in a separate unit (skipped when the unique name constraint would be
violated).  A primary-key violation aborts the first unit (response none,
HTTP 500). -/
def wallet_create (s : Store) (nameArg : Option String) (genName wid txId : String)
    (now : ℕ) : Store × Option CreateResp :=
  let name := createName nameArg genName
  if s.wallets.any (fun w => w.id == wid) || s.transactions.any (fun t => t.id == txId) then
    (s, none)
  else
    let storedName : Option String :=
      if s.wallets.any (fun u => u.name == some name) then none else some name
    (⟨s.wallets ++ [⟨wid, storedName, 0⟩],
      s.transactions ++ [⟨txId, wid, "deposit", 0, now, none⟩]⟩,
     some ⟨wid, name, 0⟩)

/-- The insert-then-update body of wallet_deposit (src/app.py lines 266-276):
append the `deposit` transaction row, then
UPDATE wallets SET balance = balance + :amt WHERE id=:id. -/
def depositApply (s : Store) (wallet_id : String) (amount : ℚ) (idem : Option String)
    (txId : String) (now : ℕ) : Store × DWResp :=
  (⟨s.wallets.map (fun w => if w.id == wallet_id then { w with balance := w.balance + amount } else w),
    s.transactions ++ [⟨txId, wallet_id, "deposit", amount, now, idem⟩]⟩,
   .okPlain)

/-- wallet_deposit (src/app.py lines 248-285): validate, then if the
idempotency key already tags any transaction return the idempotent replay
with the current balance of the requested wallet (`float(bal or 0)`),
else insert the transaction and add the amount. -/
def wallet_deposit (s : Store) (wallet_id : String) (amount : ℚ) (idem : Option String)
    (txId : String) (now : ℕ) : Store × DWResp :=
  if wallet_id = "" ∨ amount ≤ 0 then
    (s, .badRequest "wallet_id and positive amount required")
  else
    match idem with
    | some k =>
      if s.transactions.any (fun t => t.idem_key == some k) then
        (s, .okIdempotent ⟨wallet_id, (balanceOf s wallet_id).getD 0⟩)
      else
        depositApply s wallet_id amount (some k) txId now
    | none => depositApply s wallet_id amount none txId now

/-- The insert-then-update body of wallet_withdraw (src/app.py lines 310-320). -/
def withdrawApply (s : Store) (wallet_id : String) (amount : ℚ) (idem : Option String)
    (txId : String) (now : ℕ) : Store × DWResp :=
  (⟨s.wallets.map (fun w => if w.id == wallet_id then { w with balance := w.balance - amount } else w),
    s.transactions ++ [⟨txId, wallet_id, "withdraw", amount, now, idem⟩]⟩,
   .okPlain)

/-- wallet_withdraw (src/app.py lines 287-329): validate, then check the
balance FIRST (`bal is None or float(bal) < amount` fails with the bare
"insufficient funds" body), then the idempotency check, then insert the
transaction and subtract the amount. -/
def wallet_withdraw (s : Store) (wallet_id : String) (amount : ℚ) (idem : Option String)
    (txId : String) (now : ℕ) : Store × DWResp :=
  if wallet_id = "" ∨ amount ≤ 0 then
    (s, .badRequest "wallet_id and positive amount required")
  else
    match balanceOf s wallet_id with
    | none => (s, .badRequest "insufficient funds")
    | some bal =>
      if bal < amount then
        (s, .badRequest "insufficient funds")
      else
        match idem with
        | some k =>
          if s.transactions.any (fun t => t.idem_key == some k) then
            (s, .okIdempotent ⟨wallet_id, (balanceOf s wallet_id).getD 0⟩)
          else
            withdrawApply s wallet_id amount (some k) txId now
        | none => withdrawApply s wallet_id amount none txId now

/-- Response of the balance route. -/
inductive BalanceResp where
  | badRequest (error : String)
  | ok (wallet : WalletView)
deriving DecidableEq

/-- wallet_balance (src/app.py lines 331-339): a missing wallet row yields
`float(bal or 0)`, i.e. a success response with balance 0. -/
def wallet_balance (s : Store) (wallet_id : String) : BalanceResp :=
  if wallet_id = "" then .badRequest "wallet_id required"
  else .ok ⟨wallet_id, (balanceOf s wallet_id).getD 0⟩

/-- The WHERE clause built by transactions_list / transactions_export:
optional wallet_id equality, optional created_at >= date_from,
optional created_at <= date_to.  There is no filter on `type`. -/
def txMatches (wid : Option String) (df dt : Option ℕ) (t : Txn) : Bool :=
  (match wid with
   | none => true
   | some w => t.wallet_id == w) &&
  (match df with
   | none => true
   | some d => d ≤ t.created_at) &&
  (match dt with
   | none => true
   | some d => t.created_at ≤ d)

/-- Stable insertion for the descending-by-created_at order. -/
def insertDesc (t : Txn) : List Txn → List Txn
  | [] => [t]
  | u :: us => if u.created_at ≤ t.created_at then t :: u :: us else u :: insertDesc t us

/-- ORDER BY created_at DESC, embedded as a stable descending sort of the
rows in insertion order (one legal result of the SQL ordering, used
consistently by both the list and the export routes). -/
def sortDesc (l : List Txn) : List Txn := l.foldr insertDesc []

/-- The JSON body of the transactions route: items plus the echoed
clamped limit and offset. -/
structure ListResp where
  items : List Txn
  limit : ℤ
  offset : ℤ
deriving DecidableEq

/-- transactions_list (src/app.py lines 344-368):
limit = max(1, min(limit, 500)), offset = max(0, offset), filter, sort
newest first, OFFSET then LIMIT. -/
def transactions_list (s : Store) (wid : Option String) (df dt : Option ℕ)
    (limitArg offsetArg : ℤ) : ListResp :=
  let limit : ℤ := max 1 (min limitArg 500)
  let offset : ℤ := max 0 offsetArg
  let rows := sortDesc (s.transactions.filter (txMatches wid df dt))
  ⟨(rows.drop offset.toNat).take limit.toNat, limit, offset⟩

/-- The row sequence of transactions_export (src/app.py lines 370-394):
same WHERE clause and ORDER BY as transactions_list, no LIMIT/OFFSET. -/
def exportRows (s : Store) (wid : Option String) (df dt : Option ℕ) : List Txn :=
  sortDesc (s.transactions.filter (txMatches wid df dt))

/-- The comma-separated fields of one CSV data line,
`f"{r.id},{r.wallet_id},{r.type},{r.amount},{r.created_at}"`:
five fields, no counterparty column exists in the schema. -/
def csvFields (t : Txn) : List String :=
  [t.id, t.wallet_id, t.type, toString t.amount, toString t.created_at]

def csvLine (t : Txn) : String :=
  String.intercalate "," (csvFields t) ++ "\n"

def csvHeader : String := "id,wallet_id,type,amount,created_at\n"

/-- transactions_export: the streamed CSV body. -/
def transactions_export (s : Store) (wid : Option String) (df dt : Option ℕ) : String :=
  csvHeader ++ String.join ((exportRows s wid df dt).map csvLine)

/-- Modelled from the spec: the CSV row shape claimed in section 6, six
fields `id, wallet_id, type, amount, created_at, counterparty_wallet_id`
in that order.  The code has no counterparty column, so the sixth field is
supplied separately; this definition exists only to be compared with
`csvFields`. -/
def specCsvFields (t : Txn) (counterparty : Option String) : List String :=
  [t.id, t.wallet_id, t.type, toString t.amount, toString t.created_at,
   counterparty.getD ""]

/-- One mutating request against the store, for reachability statements. -/
inductive Op where
  | create (nameArg : Option String) (genName wid txId : String) (now : ℕ)
  | deposit (wid : String) (amount : ℚ) (idem : Option String) (txId : String) (now : ℕ)
  | withdraw (wid : String) (amount : ℚ) (idem : Option String) (txId : String) (now : ℕ)

def applyOp (s : Store) : Op → Store
  | .create n g w t ts => (wallet_create s n g w t ts).1
  | .deposit w a i t ts => (wallet_deposit s w a i t ts).1
  | .withdraw w a i t ts => (wallet_withdraw s w a i t ts).1

/-- The store after a finite sequence of requests starting from the
freshly created schema. -/
def run (ops : List Op) : Store := ops.foldl applyOp emptyStore

/-- Invariant carried through the reachability proof: wallet ids are
unique (the PRIMARY KEY) and all balances are non-negative. -/
def GoodW (s : Store) : Prop :=
  (s.wallets.map Wallet.id).Nodup ∧ ∀ w ∈ s.wallets, 0 ≤ w.balance

/-- Binary exponent search with structural fuel:
the integer e with 2 ^ e ≤ q < 2 ^ (e + 1) for positive q. -/
def expFuel : ℚ → ℕ → ℤ
  | _, 0 => 0
  | q, n + 1 =>
    if 2 ≤ q then expFuel (q / 2) n + 1
    else if q < 1 then expFuel (q * 2) n - 1
    else 0

def ilog2q (q : ℚ) : ℤ := expFuel q 1200

/-- Round to the nearest integer, ties to even. -/
def roundTiesEven (x : ℚ) : ℤ :=
  let fl := Rat.floor x
  let fr := x - (fl : ℚ)
  if fr < 1 / 2 then fl
  else if 1 / 2 < fr then fl + 1
  else if fl % 2 = 0 then fl else fl + 1

/-- IEEE binary64 rounding of a positive rational in the normal range:
round to 53 significant bits, ties to even.  This embeds the
`float(data.get("amount") or 0)` parse of wallet_deposit and
wallet_withdraw (src/app.py lines 253 and 292): the request carries a
decimal numeral, Python reads it as the nearest double, and that exact
rational is what the handler deposits, withdraws and compares.
Non-positive inputs (rejected by the handlers before any arithmetic) are
mapped to 0. -/
def roundF64 (q : ℚ) : ℚ :=
  if q ≤ 0 then 0
  else
    let s : ℤ := ilog2q q - 52
    (roundTiesEven (q * 2 ^ (-s)) : ℚ) * 2 ^ s

/-- The double nearest to the decimal 0.1, i.e. the amount actually
deposited by a request carrying 0.1. -/
def q01 : ℚ := roundF64 (1 / 10)

/-- IEEE binary64 addition in the normal range: the exact sum, rounded. -/
def f64add (a b : ℚ) : ℚ := roundF64 (a + b)

/-- The balance update of wallet_deposit as the SQLite fallback engine
executes it: the float-bound :amt gives the column REAL affinity, so
UPDATE wallets SET balance = balance + :amt (src/app.py lines 275-276)
accumulates in binary64, rounding at every step.  Identical to
depositApply except for that rounding. -/
def depositApplyF64 (s : Store) (wallet_id : String) (amount : ℚ) (idem : Option String)
    (txId : String) (now : ℕ) : Store × DWResp :=
  (⟨s.wallets.map
      (fun w => if w.id == wallet_id then { w with balance := f64add w.balance amount } else w),
    s.transactions ++ [⟨txId, wallet_id, "deposit", amount, now, idem⟩]⟩,
   .okPlain)

/-- Create wallet "w" and deposit the parsed amount 0.1 ten times, the
balance accumulating in binary64 as the engine does. -/
def tenDepositStoreF64 : Store :=
  (List.range 10).foldl
    (fun s i => (depositApplyF64 s "w" q01 none (toString i) (i + 1)).1)
    (wallet_create emptyStore none "w-gen" "w" "t0" 0).1

namespace TransferModel

/-- Modelled from the spec: the repository src/ has no transfer route or
function (only create/deposit/withdraw/balance/list/export exist), so the
transfer data model follows spec section 3: a transaction row additionally
carries the counterparty wallet id, set for transfer_in/transfer_out. -/
structure TTxn where
  id : String
  wallet_id : String
  type : String
  amount : ℚ
  counterparty : Option String
  idem_key : Option String
  created_at : ℕ
deriving DecidableEq

/-- Modelled from the spec: wallets as id-keyed balances plus the
transaction ledger. -/
structure TStore where
  wallets : List (String × ℚ)
  transactions : List TTxn
deriving DecidableEq

inductive TransferOutcome where
  | success (fromBalance toBalance : ℚ)
  | idempotentReplay
  | invalidAmount
  | sameWallet
  | walletNotFound (which : String)
  | insufficientFunds (currentBalance : ℚ)
deriving DecidableEq

def tBalanceOf (s : TStore) (wid : String) : Option ℚ :=
  (s.wallets.find? (fun p => p.1 == wid)).map Prod.snd

/-- Modelled from the spec: Transfer(fromWalletId, toWalletId, amount,
idempotencyKey?) of spec section 4.4, absent from src/: 1 idempotency
check, 2 validate amount and SameWallet, 3 load both wallets, 4 source
balance check, 5 atomically debit source, credit destination and append
the transfer_out / transfer_in pair with mutual counterparty references. -/
def transfer (s : TStore) (fromId toId : String) (amount : ℚ) (idem : Option String)
    (outId inId : String) (now : ℕ) : TStore × TransferOutcome :=
  if (match idem with
      | some k => s.transactions.any (fun t => t.idem_key == some k)
      | none => false) then
    (s, .idempotentReplay)
  else if amount ≤ 0 then (s, .invalidAmount)
  else if fromId = toId then (s, .sameWallet)
  else
    match tBalanceOf s fromId, tBalanceOf s toId with
    | none, _ => (s, .walletNotFound fromId)
    | some _, none => (s, .walletNotFound toId)
    | some fb, some tb =>
      if fb < amount then (s, .insufficientFunds fb)
      else
        let debited := s.wallets.map (fun p => if p.1 == fromId then (p.1, p.2 - amount) else p)
        let credited := debited.map (fun p => if p.1 == toId then (p.1, p.2 + amount) else p)
        (⟨credited,
          s.transactions ++
            [⟨outId, fromId, "transfer_out", amount, some toId, idem, now⟩,
             ⟨inId, toId, "transfer_in", amount, some fromId, idem, now⟩]⟩,
         .success (fb - amount) (tb + amount))

end TransferModel

/-- Concrete fixtures used by the claim theorems below. -/
def fixC3 : Store := ⟨[⟨"w", none, 0⟩], [⟨"t1", "w", "withdraw", 100, 1, some "k"⟩]⟩

def fixC3d : Store := ⟨[⟨"w", none, 0⟩], []⟩

def fixC3w : Store := ⟨[⟨"w", none, 50⟩], [⟨"t1", "w", "deposit", 7, 1, some "k"⟩]⟩

def fixC5 : Store := ⟨[⟨"a", none, 3⟩], []⟩

def fixC6 : Store := ⟨[⟨"w", none, 100⟩], []⟩

def txA : Txn := ⟨"t1", "w", "deposit", 5, 1, none⟩

def txB : Txn := ⟨"t2", "w", "withdraw", 3, 2, none⟩

def txC : Txn := ⟨"t3", "w", "deposit", 7, 3, none⟩

def fixC8 : Store := ⟨[⟨"w", none, 9⟩], [txA, txB, txC]⟩

def txD : Txn := ⟨"t4", "w", "deposit", 5, 1, none⟩

def fixC9 : Store := ⟨[⟨"w", none, 5⟩], [txD]⟩

def fixC9b : Store := ⟨[⟨"w", none, 2⟩], [⟨"t5", "w", "deposit", 1, 1, none⟩, ⟨"t6", "w", "deposit", 1, 2, none⟩]⟩

def fixC10 : Store := ⟨[⟨"w", none, 0⟩], [⟨"t0", "v", "deposit", 5, 1, some "g"⟩]⟩

def fixC10w : Store := ⟨[⟨"w", none, 50⟩], [⟨"t0", "v", "deposit", 7, 1, some "g"⟩]⟩

namespace TransferModel

def fixC1 : TStore := ⟨[("a", 100), ("b", 5)], []⟩

end TransferModel

/-! ## Helper lemmas -/

theorem find_map_key {α : Type} (key : α → String) (g : α → α)
    (hg : ∀ a, key (g a) = key a) (l : List α) (j : String) :
    (l.map g).find? (fun a => key a == j) = (l.find? (fun a => key a == j)).map g := by
  rw [List.find?_map]
  have : ((fun a => key a == j) ∘ g) = (fun a => key a == j) := by
    funext a
    simp [hg a]
  rw [this]

theorem map_if_id {α : Type} (q : α → Bool) (f : α → α) (l : List α)
    (h : ∀ a ∈ l, q a = false) :
    l.map (fun a => if q a then f a else a) = l := by
  induction l with
  | nil => rfl
  | cons a t ih =>
    simp [h a (List.mem_cons_self a t), ih (fun b hb => h b (List.mem_cons_of_mem a hb))]

theorem find?_append_of_left_none {α : Type} (l1 l2 : List α) (p : α → Bool)
    (h : ∀ a ∈ l1, p a = false) :
    (l1 ++ l2).find? p = l2.find? p := by
  induction l1 with
  | nil => rfl
  | cons a t ih =>
    rw [List.cons_append,
      List.find?_cons_of_neg _ (by simp [h a (List.mem_cons_self a t)])]
    exact ih (fun b hb => h b (List.mem_cons_of_mem a hb))

theorem deposit_replay_eq (s : Store) (wid : String) (amount : ℚ) (k txId : String)
    (now : ℕ) (hw : wid ≠ "") (ha : 0 < amount)
    (hk : s.transactions.any (fun t => t.idem_key == some k) = true) :
    wallet_deposit s wid amount (some k) txId now
      = (s, .okIdempotent ⟨wid, (balanceOf s wid).getD 0⟩) := by
  have hcond : ¬(wid = "" ∨ amount ≤ 0) := by
    push_neg
    exact ⟨hw, ha⟩
  simp only [wallet_deposit]
  rw [if_neg hcond]
  simp [hk]

theorem deposit_fresh_eq (s : Store) (wid : String) (amount : ℚ) (txId : String)
    (now : ℕ) (hw : wid ≠ "") (ha : 0 < amount) :
    wallet_deposit s wid amount none txId now = depositApply s wid amount none txId now := by
  have hcond : ¬(wid = "" ∨ amount ≤ 0) := by
    push_neg
    exact ⟨hw, ha⟩
  simp only [wallet_deposit]
  rw [if_neg hcond]

theorem withdraw_replay_eq (s : Store) (wid : String) (amount b : ℚ) (k txId : String)
    (now : ℕ) (hw : wid ≠ "") (ha : 0 < amount)
    (hb : balanceOf s wid = some b) (hle : amount ≤ b)
    (hk : s.transactions.any (fun t => t.idem_key == some k) = true) :
    wallet_withdraw s wid amount (some k) txId now = (s, .okIdempotent ⟨wid, b⟩) := by
  have hcond : ¬(wid = "" ∨ amount ≤ 0) := by
    push_neg
    exact ⟨hw, ha⟩
  simp only [wallet_withdraw]
  rw [if_neg hcond, hb]
  simp only [if_neg (not_lt.mpr hle)]
  simp [hk, hb]

theorem withdraw_insufficient_eq (s : Store) (wid : String) (amount b : ℚ)
    (idem : Option String) (txId : String) (now : ℕ) (hw : wid ≠ "") (ha : 0 < amount)
    (hb : balanceOf s wid = some b) (hlt : b < amount) :
    wallet_withdraw s wid amount idem txId now = (s, .badRequest "insufficient funds") := by
  have hcond : ¬(wid = "" ∨ amount ≤ 0) := by
    push_neg
    exact ⟨hw, ha⟩
  simp only [wallet_withdraw]
  rw [if_neg hcond, hb]
  simp [hlt]

theorem withdraw_absent_eq (s : Store) (wid : String) (amount : ℚ)
    (idem : Option String) (txId : String) (now : ℕ) (hw : wid ≠ "") (ha : 0 < amount)
    (hb : balanceOf s wid = none) :
    wallet_withdraw s wid amount idem txId now = (s, .badRequest "insufficient funds") := by
  have hcond : ¬(wid = "" ∨ amount ≤ 0) := by
    push_neg
    exact ⟨hw, ha⟩
  simp only [wallet_withdraw]
  rw [if_neg hcond, hb]

theorem goodW_depositApply (s : Store) (wid : String) (a : ℚ) (idem : Option String)
    (txId : String) (now : ℕ) (h : GoodW s) (ha : 0 ≤ a) :
    GoodW (depositApply s wid a idem txId now).1 := by
  obtain ⟨hnd, hnn⟩ := h
  constructor
  · simp only [depositApply]
    rw [List.map_map]
    have : (Wallet.id ∘ fun w => if w.id == wid then { w with balance := w.balance + a } else w)
        = Wallet.id := by
      funext w
      by_cases hc : w.id = wid <;> simp [hc]
    rw [this]
    exact hnd
  · intro w hw
    simp only [depositApply] at hw
    rw [List.mem_map] at hw
    obtain ⟨u, hu, rfl⟩ := hw
    by_cases hc : (u.id == wid) = true
    · rw [if_pos hc]
      exact add_nonneg (hnn u hu) ha
    · rw [if_neg hc]
      exact hnn u hu

theorem goodW_withdrawApply (s : Store) (wid : String) (a : ℚ) (idem : Option String)
    (txId : String) (now : ℕ) (h : GoodW s)
    (hbound : ∀ w ∈ s.wallets, w.id = wid → a ≤ w.balance) :
    GoodW (withdrawApply s wid a idem txId now).1 := by
  obtain ⟨hnd, hnn⟩ := h
  constructor
  · simp only [withdrawApply]
    rw [List.map_map]
    have : (Wallet.id ∘ fun w => if w.id == wid then { w with balance := w.balance - a } else w)
        = Wallet.id := by
      funext w
      by_cases hc : w.id = wid <;> simp [hc]
    rw [this]
    exact hnd
  · intro w hw
    simp only [withdrawApply] at hw
    rw [List.mem_map] at hw
    obtain ⟨u, hu, rfl⟩ := hw
    by_cases hc : (u.id == wid) = true
    · rw [if_pos hc]
      exact sub_nonneg.mpr (hbound u hu (beq_iff_eq.mp hc))
    · rw [if_neg hc]
      exact hnn u hu

theorem goodW_create (s : Store) (nameArg : Option String) (genName wid txId : String)
    (now : ℕ) (h : GoodW s) : GoodW (wallet_create s nameArg genName wid txId now).1 := by
  simp only [wallet_create]
  split
  · exact h
  · rename_i hguard
    rw [Bool.or_eq_true, not_or] at hguard
    obtain ⟨hfresh, _⟩ := hguard
    constructor
    · rw [List.map_append, List.nodup_append]
      refine ⟨h.1, by simp, ?_⟩
      intro x hx hx2
      rw [List.mem_map] at hx
      obtain ⟨w, hw, rfl⟩ := hx
      simp only [List.map_cons, List.map_nil, List.mem_singleton] at hx2
      exact hfresh (List.any_eq_true.mpr ⟨w, hw, by simp [hx2]⟩)
    · intro w hw
      rw [List.mem_append] at hw
      rcases hw with hw | hw
      · exact h.2 w hw
      · rw [List.mem_singleton] at hw
        rw [hw]

theorem goodW_deposit (s : Store) (wid : String) (a : ℚ) (idem : Option String)
    (txId : String) (now : ℕ) (h : GoodW s) :
    GoodW (wallet_deposit s wid a idem txId now).1 := by
  simp only [wallet_deposit]
  split
  · exact h
  · rename_i hcond
    push_neg at hcond
    cases idem with
    | none => exact goodW_depositApply s wid a none txId now h (le_of_lt hcond.2)
    | some k =>
      by_cases hrep : (s.transactions.any fun t => t.idem_key == some k) = true
      · simp only [if_pos hrep]
        exact h
      · simp only [if_neg hrep]
        exact goodW_depositApply s wid a (some k) txId now h (le_of_lt hcond.2)

theorem goodW_withdraw (s : Store) (wid : String) (a : ℚ) (idem : Option String)
    (txId : String) (now : ℕ) (h : GoodW s) :
    GoodW (wallet_withdraw s wid a idem txId now).1 := by
  simp only [wallet_withdraw]
  split
  · exact h
  · rename_i hcond
    split
    · exact h
    · rename_i bal hbal
      split
      · exact h
      · rename_i hnotlt
        have hbound : ∀ w ∈ s.wallets, w.id = wid → a ≤ w.balance := by
          intro w hw hid
          obtain ⟨u, hfind, hub⟩ : ∃ u, findWallet s wid = some u ∧ u.balance = bal := by
            simp only [balanceOf] at hbal
            rcases Option.map_eq_some'.mp hbal with ⟨u, h1, h2⟩
            exact ⟨u, h1, h2⟩
          have hfind2 : s.wallets.find? (fun w => w.id == wid) = some u := hfind
          have humem : u ∈ s.wallets := List.mem_of_find?_eq_some hfind2
          have huid : u.id = wid := by
            have := List.find?_some hfind2
            exact beq_iff_eq.mp this
          have : w = u :=
            List.inj_on_of_nodup_map h.1 hw humem (by rw [hid, huid])
          rw [this, hub]
          exact not_lt.mp hnotlt
        cases idem with
        | none => exact goodW_withdrawApply s wid a none txId now h hbound
        | some k =>
          by_cases hrep : (s.transactions.any fun t => t.idem_key == some k) = true
          · simp only [if_pos hrep]
            exact h
          · simp only [if_neg hrep]
            exact goodW_withdrawApply s wid a (some k) txId now h hbound

theorem goodW_applyOp (s : Store) (op : Op) (h : GoodW s) : GoodW (applyOp s op) := by
  cases op with
  | create n g w t ts => exact goodW_create s n g w t ts h
  | deposit w a i t ts => exact goodW_deposit s w a i t ts h
  | withdraw w a i t ts => exact goodW_withdraw s w a i t ts h

theorem goodW_run (ops : List Op) : GoodW (run ops) := by
  have key : ∀ (l : List Op) (s : Store), GoodW s → GoodW (l.foldl applyOp s) := by
    intro l
    induction l with
    | nil => intro s h; exact h
    | cons op rest ih =>
      intro s h
      exact ih _ (goodW_applyOp s op h)
  exact key ops emptyStore ⟨List.nodup_nil, by intro w hw; cases hw⟩

theorem insertDesc_perm (t : Txn) (l : List Txn) : (insertDesc t l).Perm (t :: l) := by
  induction l with
  | nil => exact List.Perm.refl _
  | cons u us ih =>
    simp only [insertDesc]
    split
    · exact List.Perm.refl _
    · exact (ih.cons u).trans (List.Perm.swap t u us)

theorem sortDesc_perm (l : List Txn) : (sortDesc l).Perm l := by
  induction l with
  | nil => exact List.Perm.refl _
  | cons a t ih =>
    simp only [sortDesc, List.foldr_cons]
    exact (insertDesc_perm a _).trans (ih.cons a)

theorem pairwise_insertDesc (t : Txn) (l : List Txn)
    (h : l.Pairwise (fun a b => b.created_at ≤ a.created_at)) :
    (insertDesc t l).Pairwise (fun a b => b.created_at ≤ a.created_at) := by
  induction l with
  | nil => simp [insertDesc]
  | cons u us ih =>
    rw [List.pairwise_cons] at h
    obtain ⟨hu, hus⟩ := h
    simp only [insertDesc]
    split
    · rename_i hc
      refine List.pairwise_cons.mpr ⟨?_, List.pairwise_cons.mpr ⟨hu, hus⟩⟩
      intro b hb
      rcases List.mem_cons.mp hb with rfl | hb2
      · exact hc
      · exact le_trans (hu b hb2) hc
    · rename_i hc
      refine List.pairwise_cons.mpr ⟨?_, ih hus⟩
      intro b hb
      rcases List.mem_cons.mp ((insertDesc_perm t us).mem_iff.mp hb) with rfl | hb2
      · exact le_of_lt (not_le.mp hc)
      · exact hu b hb2

theorem sortDesc_pairwise (l : List Txn) :
    (sortDesc l).Pairwise (fun a b => b.created_at ≤ a.created_at) := by
  induction l with
  | nil => exact List.Pairwise.nil
  | cons a t ih =>
    simp only [sortDesc, List.foldr_cons]
    exact pairwise_insertDesc a _ ih

theorem find?_debit (l : List (String × ℚ)) (k j : String) (amt : ℚ) :
    (l.map (fun p => if p.1 == k then (p.1, p.2 - amt) else p)).find? (fun p => p.1 == j)
      = (l.find? (fun p => p.1 == j)).map (fun p => if p.1 == k then (p.1, p.2 - amt) else p) :=
  find_map_key Prod.fst _ (fun p => by by_cases hc : p.1 = k <;> simp [hc]) l j

theorem find?_credit (l : List (String × ℚ)) (k j : String) (amt : ℚ) :
    (l.map (fun p => if p.1 == k then (p.1, p.2 + amt) else p)).find? (fun p => p.1 == j)
      = (l.find? (fun p => p.1 == j)).map (fun p => if p.1 == k then (p.1, p.2 + amt) else p) :=
  find_map_key Prod.fst _ (fun p => by by_cases hc : p.1 = k <;> simp [hc]) l j

/-! ## Claim theorems -/

namespace TransferModel

/-- C1: for every successful transfer(A, B, amount), exactly the two
transaction rows transfer_out (on A, counterparty B) and transfer_in (on B,
counterparty A) with the same amount are appended together, balance(A)
decreases by amount and balance(B) increases by amount relative to their
pre-call values; on InsufficientFunds the store is unchanged.  (The
operation is modelled from the spec; src/ has no transfer.) -/
theorem C1_transfer_atomicity (s : TStore) (A B : String) (amt : ℚ) (idem : Option String)
    (oid iid : String) (now : ℕ) :
    (∀ nfb ntb, (transfer s A B amt idem oid iid now).2 = .success nfb ntb →
      (transfer s A B amt idem oid iid now).1.transactions
        = s.transactions ++
            [⟨oid, A, "transfer_out", amt, some B, idem, now⟩,
             ⟨iid, B, "transfer_in", amt, some A, idem, now⟩]
      ∧ tBalanceOf (transfer s A B amt idem oid iid now).1 A = some nfb
      ∧ tBalanceOf (transfer s A B amt idem oid iid now).1 B = some ntb
      ∧ (∃ fb, tBalanceOf s A = some fb ∧ nfb = fb - amt)
      ∧ (∃ tb, tBalanceOf s B = some tb ∧ ntb = tb + amt))
    ∧ (∀ cb, (transfer s A B amt idem oid iid now).2 = .insufficientFunds cb →
        (transfer s A B amt idem oid iid now).1 = s) := by
  simp only [transfer]
  split
  · exact ⟨fun nfb ntb h => by simp at h, fun cb h => by simp at h⟩
  · split
    · exact ⟨fun nfb ntb h => by simp at h, fun cb h => by simp at h⟩
    · split
      · exact ⟨fun nfb ntb h => by simp at h, fun cb h => by simp at h⟩
      · rename_i hne
        split
        · exact ⟨fun nfb ntb h => by simp at h, fun cb h => by simp at h⟩
        · exact ⟨fun nfb ntb h => by simp at h, fun cb h => by simp at h⟩
        · rename_i fb0 tb0 hA hB
          split
          · exact ⟨fun nfb ntb h => by simp at h, fun cb h => rfl⟩
          · refine ⟨?_, fun cb h => by simp at h⟩
            intro nfb ntb h
            simp only [Prod.snd] at h
            injection h with h1 h2
            subst h1
            subst h2
            refine ⟨rfl, ?_, ?_, ⟨fb0, hA, rfl⟩, ⟨tb0, hB, rfl⟩⟩
            · simp only [tBalanceOf] at hA ⊢
              obtain ⟨pA, hpA, hpA2⟩ := Option.map_eq_some'.mp hA
              have hA1 : pA.1 = A := by
                have h5 := List.find?_some hpA
                simpa using h5
              rw [find?_credit, find?_debit, hpA]
              simp [hA1, hne, hpA2]
            · simp only [tBalanceOf] at hB ⊢
              obtain ⟨pB, hpB, hpB2⟩ := Option.map_eq_some'.mp hB
              have hB1 : pB.1 = B := by
                have h5 := List.find?_some hpB
                simpa using h5
              rw [find?_credit, find?_debit, hpB]
              simp [hB1, Ne.symm hne, hpB2]

set_option maxRecDepth 10000 in
unseal Rat.add Rat.sub Rat.mul Rat.inv Rat.ofScientific in
/-- C1 witness: a concrete successful transfer of 40 from "a" (balance 100)
to "b" (balance 5), and a concrete InsufficientFunds transfer of 1000. -/
theorem C1_transfer_atomicity_witness :
    ((transfer fixC1 "a" "b" 40 none "o1" "i1" 7).1.transactions
        = fixC1.transactions ++
            [⟨"o1", "a", "transfer_out", 40, some "b", none, 7⟩,
             ⟨"i1", "b", "transfer_in", 40, some "a", none, 7⟩]
      ∧ tBalanceOf (transfer fixC1 "a" "b" 40 none "o1" "i1" 7).1 "a" = some 60
      ∧ tBalanceOf (transfer fixC1 "a" "b" 40 none "o1" "i1" 7).1 "b" = some 45
      ∧ (∃ fb, tBalanceOf fixC1 "a" = some fb ∧ (60 : ℚ) = fb - 40)
      ∧ (∃ tb, tBalanceOf fixC1 "b" = some tb ∧ (45 : ℚ) = tb + 40))
    ∧ (transfer fixC1 "a" "b" 1000 none "o2" "i2" 8).1 = fixC1 :=
  ⟨(C1_transfer_atomicity fixC1 "a" "b" 40 none "o1" "i1" 7).1 60 45 (by decide),
   (C1_transfer_atomicity fixC1 "a" "b" 1000 none "o2" "i2" 8).2 100 (by decide)⟩

end TransferModel

/-- C2: every store reachable by a finite sequence of create_wallet,
deposit and withdraw requests from the empty store has all wallet
balances non-negative. -/
theorem C2_balance_nonneg (ops : List Op) : ∀ w ∈ (run ops).wallets, 0 ≤ w.balance :=
  (goodW_run ops).2

set_option maxRecDepth 10000 in
unseal Rat.add Rat.sub Rat.mul Rat.inv Rat.ofScientific in
/-- C2 witness: the wallet left by create, deposit 5, withdraw 2 has
balance 3, and the theorem applies to it. -/
theorem C2_balance_nonneg_witness :
    (0 : ℚ) ≤ (Wallet.mk "w" (some "gen") 3).balance :=
  C2_balance_nonneg
    [Op.create none "gen" "w" "t" 0, Op.deposit "w" 5 none "t2" 1, Op.withdraw "w" 2 none "t3" 2]
    ⟨"w", some "gen", 3⟩ (by decide)

set_option maxRecDepth 10000 in
unseal Rat.add Rat.sub Rat.mul Rat.inv Rat.ofScientific in
/-- C3 counterexample: in a store whose transaction "t1" (a withdraw of 100
on wallet "w", which now has balance 0) carries idempotency key "k", the
replayed withdraw of 100 with key "k" fails with "insufficient funds"
instead of returning the claimed replay success, because the balance check
precedes the idempotency check; moreover a replayed deposit's response
(okIdempotent, with balance) differs from the original call's plain ok. -/
theorem C3_counterexample :
    (wallet_withdraw fixC3 "w" 100 (some "k") "t2" 2).2 = .badRequest "insufficient funds"
    ∧ (wallet_deposit fixC3d "w" 5 (some "j") "t1" 1).2 = .okPlain
    ∧ (wallet_deposit (wallet_deposit fixC3d "w" 5 (some "j") "t1" 1).1 "w" 5 (some "j") "t2" 2).2
        = .okIdempotent ⟨"w", 5⟩
    ∧ (wallet_deposit (wallet_deposit fixC3d "w" 5 (some "j") "t1" 1).1 "w" 5 (some "j") "t2" 2).2
        ≠ (wallet_deposit fixC3d "w" 5 (some "j") "t1" 1).2 := by
  decide

/-- C3 amended: a deposit whose idempotency key already tags any stored
transaction applies no balance delta, creates no transaction, and returns
ok with an idempotent flag and the requested wallet's current balance
(a response shape that differs from the original call's plain ok).  For
withdraw the balance check precedes the idempotency check: the replay
response is returned only when the wallet exists with balance at least the
amount; when the current balance is below the amount the replayed withdraw
fails with "insufficient funds". -/
theorem C3_amended (s : Store) (wid : String) (amount : ℚ) (k txId : String) (now : ℕ)
    (hw : wid ≠ "") (ha : 0 < amount)
    (hk : s.transactions.any (fun t => t.idem_key == some k) = true) :
    wallet_deposit s wid amount (some k) txId now
      = (s, .okIdempotent ⟨wid, (balanceOf s wid).getD 0⟩)
    ∧ (∀ b, balanceOf s wid = some b → amount ≤ b →
        wallet_withdraw s wid amount (some k) txId now = (s, .okIdempotent ⟨wid, b⟩))
    ∧ (∀ b, balanceOf s wid = some b → b < amount →
        wallet_withdraw s wid amount (some k) txId now
          = (s, .badRequest "insufficient funds")) := by
  refine ⟨deposit_replay_eq s wid amount k txId now hw ha hk, ?_, ?_⟩
  · intro b hb hle
    exact withdraw_replay_eq s wid amount b k txId now hw ha hb hle hk
  · intro b hb hlt
    exact withdraw_insufficient_eq s wid amount b (some k) txId now hw ha hb hlt

set_option maxRecDepth 10000 in
unseal Rat.add Rat.sub Rat.mul Rat.inv Rat.ofScientific in
/-- C3 amended witness: wallet "w" has balance 50 and key "k" is taken;
the replayed deposit and the replayed withdraw of 7 both leave the store
unchanged and return the idempotent response with balance 50. -/
theorem C3_amended_witness :
    wallet_deposit fixC3w "w" 7 (some "k") "t2" 2
      = (fixC3w, .okIdempotent ⟨"w", (balanceOf fixC3w "w").getD 0⟩)
    ∧ wallet_withdraw fixC3w "w" 7 (some "k") "t2" 2
      = (fixC3w, .okIdempotent ⟨"w", 50⟩) :=
  ⟨(C3_amended fixC3w "w" 7 "k" "t2" 2 (by decide) (by decide) (by decide)).1,
   (C3_amended fixC3w "w" 7 "k" "t2" 2 (by decide) (by decide) (by decide)).2.1 50
     (by decide) (by decide)⟩

set_option maxRecDepth 40000 in
unseal Rat.add Rat.sub Rat.mul Rat.inv Rat.ofScientific in
/-- C4 counterexample: the amount parse is Python float(), not exact
decimal: the parsed 0.1 differs from 1/10, and after ten deposits of the
parsed 0.1, accumulated in binary64 as the engine does, the balance of
wallet "w" is not 1. -/
theorem C4_counterexample :
    roundF64 (1 / 10) ≠ (1 / 10 : ℚ)
    ∧ balanceOf tenDepositStoreF64 "w" ≠ some 1 := by
  decide

set_option maxRecDepth 40000 in
unseal Rat.add Rat.sub Rat.mul Rat.inv Rat.ofScientific in
/-- C4 amended: wallet_deposit and wallet_withdraw parse amounts with
Python float(), i.e. IEEE binary64: the parsed 0.1 is exactly
3602879701896397/2^55, and ten deposits of it, the balance accumulating
in binary64 as the SQLite fallback engine executes the UPDATE, leave
balance (2^53 - 1)/2^53 = 9007199254740991/9007199254740992, not 1. -/
theorem C4_amended :
    roundF64 (1 / 10) = 3602879701896397 / 36028797018963968
    ∧ roundF64 (1 / 10) ≠ 1 / 10
    ∧ balanceOf tenDepositStoreF64 "w" = some (9007199254740991 / 9007199254740992)
    ∧ balanceOf tenDepositStoreF64 "w" ≠ some 1 := by
  decide

set_option maxRecDepth 10000 in
unseal Rat.add Rat.sub Rat.mul Rat.inv Rat.ofScientific in
/-- C5 counterexample: for the absent wallet id "ghost", the balance route
returns a success response with balance 0 (not WalletNotFound), the
withdraw route fails with "insufficient funds" (not WalletNotFound), and
the deposit route succeeds and changes the store (inserting a transaction
row for the absent wallet). -/
theorem C5_counterexample :
    wallet_balance fixC5 "ghost" = .ok ⟨"ghost", 0⟩
    ∧ (wallet_withdraw fixC5 "ghost" 5 none "t9" 3).2 = .badRequest "insufficient funds"
    ∧ (wallet_deposit fixC5 "ghost" 5 none "t9" 3).2 = .okPlain
    ∧ (wallet_deposit fixC5 "ghost" 5 none "t9" 3).1 ≠ fixC5 := by
  decide

/-- C5 amended: for every wallet id absent from the store, withdraw fails
with "insufficient funds" leaving the store unchanged; get_balance
succeeds reporting balance 0; and deposit (with a fresh idempotency
situation, here none) succeeds, leaving every wallet row unchanged and
appending a deposit transaction row for the absent id (the SQLite
fallback engine does not enforce the foreign key). -/
theorem C5_amended (s : Store) (g : String) (amount : ℚ) (txId : String) (now : ℕ)
    (hg : g ≠ "") (ha : 0 < amount) (habs : findWallet s g = none) :
    wallet_withdraw s g amount none txId now = (s, .badRequest "insufficient funds")
    ∧ wallet_balance s g = .ok ⟨g, 0⟩
    ∧ (wallet_deposit s g amount none txId now).1.wallets = s.wallets
    ∧ (wallet_deposit s g amount none txId now).1.transactions
        = s.transactions ++ [⟨txId, g, "deposit", amount, now, none⟩]
    ∧ (wallet_deposit s g amount none txId now).2 = .okPlain := by
  have hbal : balanceOf s g = none := by
    simp [balanceOf, habs]
  have habs2 : s.wallets.find? (fun w => w.id == g) = none := habs
  have hnomatch : ∀ w ∈ s.wallets, (w.id == g) = false := by
    intro w hw
    have := List.find?_eq_none.mp habs2 w hw
    simpa using this
  refine ⟨withdraw_absent_eq s g amount none txId now hg ha hbal, ?_, ?_, ?_, ?_⟩
  · simp [wallet_balance, hg, hbal]
  · rw [deposit_fresh_eq s g amount txId now hg ha]
    exact map_if_id (fun w => w.id == g)
      (fun w => { w with balance := w.balance + amount }) s.wallets hnomatch
  · rw [deposit_fresh_eq s g amount txId now hg ha]
    rfl
  · rw [deposit_fresh_eq s g amount txId now hg ha]
    rfl

set_option maxRecDepth 10000 in
unseal Rat.add Rat.sub Rat.mul Rat.inv Rat.ofScientific in
/-- C5 amended witness: the concrete absent id "ghost" on a one-wallet
store. -/
theorem C5_amended_witness :
    wallet_withdraw fixC5 "ghost" 5 none "t9" 3 = (fixC5, .badRequest "insufficient funds")
    ∧ wallet_balance fixC5 "ghost" = .ok ⟨"ghost", 0⟩
    ∧ (wallet_deposit fixC5 "ghost" 5 none "t9" 3).1.transactions
        = fixC5.transactions ++ [⟨"t9", "ghost", "deposit", 5, 3, none⟩] :=
  have h := C5_amended fixC5 "ghost" 5 "t9" 3 (by decide) (by decide) (by decide)
  ⟨h.1, h.2.1, h.2.2.2.1⟩

set_option maxRecDepth 10000 in
unseal Rat.add Rat.sub Rat.mul Rat.inv Rat.ofScientific in
/-- C6 counterexample: withdrawing 150 from wallet "w" with balance 100
does fail with "insufficient funds" and changes nothing, but the error
response carries no balance at all, contradicting the claim that it
reports the current balance. -/
theorem C6_counterexample :
    wallet_withdraw fixC6 "w" 150 none "t1" 1 = (fixC6, .badRequest "insufficient funds")
    ∧ reportedBalance (wallet_withdraw fixC6 "w" 150 none "t1" 1).2 = none
    ∧ balanceOf fixC6 "w" = some 100 := by
  decide

/-- C6 amended: a withdraw on an existing wallet whose balance is below
the amount fails with the bare "insufficient funds" error (no current
balance in the response), records no transaction, and leaves the store
unchanged; this holds for any idempotency key since the balance check
comes first. -/
theorem C6_amended (s : Store) (wid : String) (amount b : ℚ) (idem : Option String)
    (txId : String) (now : ℕ) (hw : wid ≠ "") (ha : 0 < amount)
    (hb : balanceOf s wid = some b) (hlt : b < amount) :
    wallet_withdraw s wid amount idem txId now = (s, .badRequest "insufficient funds")
    ∧ reportedBalance (wallet_withdraw s wid amount idem txId now).2 = none := by
  have h := withdraw_insufficient_eq s wid amount b idem txId now hw ha hb hlt
  exact ⟨h, by rw [h]; rfl⟩

set_option maxRecDepth 10000 in
unseal Rat.add Rat.sub Rat.mul Rat.inv Rat.ofScientific in
/-- C6 amended witness: balance 100, withdraw 150. -/
theorem C6_amended_witness :
    wallet_withdraw fixC6 "w" 150 none "t1" 1 = (fixC6, .badRequest "insufficient funds")
    ∧ reportedBalance (wallet_withdraw fixC6 "w" 150 none "t1" 1).2 = none :=
  C6_amended fixC6 "w" 150 100 none "t1" 1 (by decide) (by decide) (by decide) (by decide)

set_option maxRecDepth 10000 in
unseal Rat.add Rat.sub Rat.mul Rat.inv Rat.ofScientific in
/-- C7 counterexample: wallet_create reads no initialDeposit at all; with
none supplied it still inserts a deposit transaction (of amount 0),
contradicting the claim that a deposit transaction is inserted if and only
if initialDeposit is positive. -/
theorem C7_counterexample :
    (wallet_create emptyStore none "gen" "w1" "t1" 5).1.transactions
      = [⟨"t1", "w1", "deposit", 0, 5, none⟩]
    ∧ (wallet_create emptyStore none "gen" "w1" "t1" 5).1.transactions ≠ []
    ∧ (wallet_create emptyStore none "gen" "w1" "t1" 5).2 = some ⟨"w1", "gen", 0⟩ := by
  decide

/-- C7 amended: wallet_create accepts no initial deposit; whenever the new
ids are fresh it inserts the wallet row with balance 0, always appends one
deposit transaction of amount 0 in the same unit, and returns the new
wallet id, its name and balance 0. -/
theorem C7_amended (s : Store) (nameArg : Option String) (genName wid txId : String)
    (now : ℕ)
    (hguard : (s.wallets.any (fun w => w.id == wid)
        || s.transactions.any (fun t => t.id == txId)) = false) :
    balanceOf (wallet_create s nameArg genName wid txId now).1 wid = some 0
    ∧ (wallet_create s nameArg genName wid txId now).1.transactions
        = s.transactions ++ [⟨txId, wid, "deposit", 0, now, none⟩]
    ∧ (wallet_create s nameArg genName wid txId now).2
        = some ⟨wid, createName nameArg genName, 0⟩ := by
  have hguard2 : ¬ (s.wallets.any (fun w => w.id == wid)
      || s.transactions.any (fun t => t.id == txId)) = true := by
    rw [hguard]
    simp
  have h1 : s.wallets.any (fun w => w.id == wid) = false :=
    (Bool.or_eq_false_iff.mp hguard).1
  refine ⟨?_, ?_, ?_⟩
  · simp only [wallet_create]
    rw [if_neg hguard2]
    simp only [balanceOf, findWallet]
    rw [find?_append_of_left_none]
    · simp [List.find?]
    · intro w hw
      have := List.any_eq_false.mp h1 w hw
      simpa using this
  · simp only [wallet_create]
    rw [if_neg hguard2]
  · simp only [wallet_create]
    rw [if_neg hguard2]

set_option maxRecDepth 10000 in
unseal Rat.add Rat.sub Rat.mul Rat.inv Rat.ofScientific in
/-- C7 amended witness: creating a wallet in the empty store. -/
theorem C7_amended_witness :
    balanceOf (wallet_create emptyStore none "gen" "w1" "t1" 5).1 "w1" = some 0
    ∧ (wallet_create emptyStore none "gen" "w1" "t1" 5).1.transactions
        = emptyStore.transactions ++ [⟨"t1", "w1", "deposit", 0, 5, none⟩]
    ∧ (wallet_create emptyStore none "gen" "w1" "t1" 5).2
        = some ⟨"w1", createName none "gen", 0⟩ :=
  C7_amended emptyStore none "gen" "w1" "t1" 5 (by decide)

set_option maxRecDepth 10000 in
unseal Rat.add Rat.sub Rat.mul Rat.inv Rat.ofScientific in
/-- C10 counterexample: idempotency-key matching is global, but a withdraw
whose key "g" already tags a transaction (of the other wallet "v") is NOT
treated as a replay when the requested wallet's balance is below the
amount: the balance check runs first and the call fails. -/
theorem C10_counterexample :
    fixC10.transactions.any (fun t => t.idem_key == some "g") = true
    ∧ (wallet_withdraw fixC10 "w" 10 (some "g") "t1" 2).2
        = .badRequest "insufficient funds" := by
  decide

/-- C10 amended: the idempotency lookup is global and ignores the matched
transaction's wallet, type and amount: a deposit whose key tags any stored
transaction is always a replay (no delta anywhere, success with the
requested wallet's current balance); a withdraw with such a key is a
replay only when the requested wallet exists with balance at least the
amount, and otherwise fails with "insufficient funds" because the balance
check precedes the idempotency check. -/
theorem C10_amended (s : Store) (wid : String) (amount : ℚ) (k txId : String) (now : ℕ)
    (t : Txn) (ht : t ∈ s.transactions) (hkey : t.idem_key = some k)
    (hw : wid ≠ "") (ha : 0 < amount) :
    wallet_deposit s wid amount (some k) txId now
      = (s, .okIdempotent ⟨wid, (balanceOf s wid).getD 0⟩)
    ∧ (∀ b, balanceOf s wid = some b → amount ≤ b →
        wallet_withdraw s wid amount (some k) txId now = (s, .okIdempotent ⟨wid, b⟩))
    ∧ ((balanceOf s wid = none ∨ ∃ b, balanceOf s wid = some b ∧ b < amount) →
        wallet_withdraw s wid amount (some k) txId now
          = (s, .badRequest "insufficient funds")) := by
  have hk : s.transactions.any (fun u => u.idem_key == some k) = true :=
    List.any_eq_true.mpr ⟨t, ht, by simp [hkey]⟩
  refine ⟨deposit_replay_eq s wid amount k txId now hw ha hk, ?_, ?_⟩
  · intro b hb hle
    exact withdraw_replay_eq s wid amount b k txId now hw ha hb hle hk
  · intro hcase
    rcases hcase with hb | ⟨b, hb, hlt⟩
    · exact withdraw_absent_eq s wid amount (some k) txId now hw ha hb
    · exact withdraw_insufficient_eq s wid amount b (some k) txId now hw ha hb hlt

/-- If a time range admits the creation times of txA (1) and txC (3), it
admits that of txB (2), and the three share wallet "w": so any WHERE
clause of transactions_list keeping txA and txC keeps txB. -/
theorem txMatches_mid (wid : Option String) (df dt : Option ℕ)
    (hA : txMatches wid df dt txA = true) (hC : txMatches wid df dt txC = true) :
    txMatches wid df dt txB = true := by
  simp only [txMatches, txA, txB, txC] at hA hC ⊢
  cases wid <;> cases df <;> cases dt <;> simp_all <;> omega

/-- A contiguous LIMIT/OFFSET slice of the sorted rows [txC, txB, txA]
that keeps both ends keeps the middle. -/
theorem slice_mid (o l : ℕ)
    (hC : txC ∈ (([txC, txB, txA].drop o).take l))
    (hA : txA ∈ (([txC, txB, txA].drop o).take l)) :
    txB ∈ (([txC, txB, txA].drop o).take l) := by
  match o with
  | 0 =>
    match l with
    | 0 => simp at hC
    | 1 => exact absurd hA (by decide)
    | 2 => exact absurd hA (by decide)
    | n + 3 => simp [List.take_succ_cons, List.mem_cons]
  | 1 => exact absurd (List.mem_of_mem_take hC) (by decide)
  | 2 => exact absurd (List.mem_of_mem_take hC) (by decide)
  | n + 3 =>
    rw [List.drop_eq_nil_of_le (by simp)] at hC
    simp at hC

/-- C8 counterexample: in the store fixC8 holding a deposit at time 1, a
withdraw at time 2 and a deposit at time 3 on one wallet, no choice of the
parameters transactions_list accepts (wallet filter, date range, limit,
offset) returns exactly the two deposits: the route has no type filter,
and every expressible result that contains both deposits also contains
the withdraw between them. -/
theorem C8_counterexample :
    ¬ ∃ (wid : Option String) (df dt : Option ℕ) (l o : ℤ),
        txC ∈ (transactions_list fixC8 wid df dt l o).items
        ∧ txA ∈ (transactions_list fixC8 wid df dt l o).items
        ∧ txB ∉ (transactions_list fixC8 wid df dt l o).items := by
  rintro ⟨wid, df, dt, l, o, h3, h1, h2⟩
  simp only [transactions_list] at h3 h1 h2
  have hC' : txC ∈ sortDesc (fixC8.transactions.filter (txMatches wid df dt)) :=
    List.mem_of_mem_drop (List.mem_of_mem_take h3)
  have hA' : txA ∈ sortDesc (fixC8.transactions.filter (txMatches wid df dt)) :=
    List.mem_of_mem_drop (List.mem_of_mem_take h1)
  have mC := List.mem_filter.mp ((sortDesc_perm _).mem_iff.mp hC')
  have mA := List.mem_filter.mp ((sortDesc_perm _).mem_iff.mp hA')
  have pB : txMatches wid df dt txB = true := txMatches_mid wid df dt mA.2 mC.2
  have hfilter : fixC8.transactions.filter (txMatches wid df dt) = [txA, txB, txC] := by
    show [txA, txB, txC].filter (txMatches wid df dt) = [txA, txB, txC]
    simp [List.filter, mA.2, mC.2, pB]
  have hsort : sortDesc [txA, txB, txC] = [txC, txB, txA] := by decide
  rw [hfilter, hsort] at h3 h1 h2
  exact h2 (slice_mid _ _ h3 h1)

/-- C8 amended: transactions_list returns at most 500 items per page
(limit clamped to [1, 500]), ordered newest-first by created_at, each
returned item is a stored transaction matching the supplied wallet and
creation-time filters (there is no type filter), and with offset 0 and
limit 500 a result set of at most 500 matching rows is returned exactly,
sorted. -/
theorem C8_amended (s : Store) (wid : Option String) (df dt : Option ℕ) (l o : ℤ) :
    (transactions_list s wid df dt l o).items.length ≤ 500
    ∧ (transactions_list s wid df dt l o).items.Pairwise
        (fun a b => b.created_at ≤ a.created_at)
    ∧ (∀ t ∈ (transactions_list s wid df dt l o).items,
        t ∈ s.transactions ∧ txMatches wid df dt t = true)
    ∧ ((s.transactions.filter (txMatches wid df dt)).length ≤ 500 → o = 0 → l = 500 →
        (transactions_list s wid df dt l o).items
          = sortDesc (s.transactions.filter (txMatches wid df dt))) := by
  refine ⟨?_, ?_, ?_, ?_⟩
  · simp only [transactions_list]
    have h1 : (max 1 (min l 500) : ℤ).toNat ≤ 500 := by
      rw [Int.toNat_le]
      omega
    calc (((sortDesc (s.transactions.filter (txMatches wid df dt))).drop
          (max 0 o).toNat).take (max 1 (min l 500)).toNat).length
        ≤ (max 1 (min l 500)).toNat := by
          rw [List.length_take]
          exact min_le_left _ _
      _ ≤ 500 := h1
  · simp only [transactions_list]
    exact List.Pairwise.sublist
      ((List.take_sublist _ _).trans (List.drop_sublist _ _)) (sortDesc_pairwise _)
  · intro t ht
    simp only [transactions_list] at ht
    have h2 : t ∈ sortDesc (s.transactions.filter (txMatches wid df dt)) :=
      List.mem_of_mem_drop (List.mem_of_mem_take ht)
    have h3 := List.mem_filter.mp ((sortDesc_perm _).mem_iff.mp h2)
    exact ⟨h3.1, h3.2⟩
  · intro hlen ho hl
    subst ho
    subst hl
    simp only [transactions_list]
    have e1 : ((max 0 (0 : ℤ)).toNat) = 0 := by decide
    have e2 : ((max 1 (min (500 : ℤ) 500)).toNat) = 500 := by decide
    rw [e1, e2, List.drop_zero,
      List.take_of_length_le (by rw [(sortDesc_perm _).length_eq]; exact hlen)]

set_option maxRecDepth 10000 in
unseal Rat.add Rat.sub Rat.mul Rat.inv Rat.ofScientific in
/-- C8 amended witness: with no filters, limit 500 and offset 0 on fixC8,
txC is returned and matches, and the page is exactly the sorted filtered
rows. -/
theorem C8_amended_witness :
    (txC ∈ fixC8.transactions ∧ txMatches none none none txC = true)
    ∧ (transactions_list fixC8 none none none 500 0).items
        = sortDesc (fixC8.transactions.filter (txMatches none none none)) :=
  have h := C8_amended fixC8 none none none 500 0
  ⟨h.2.2.1 txC (by decide), h.2.2.2 (by decide) rfl rfl⟩

set_option maxRecDepth 10000 in
unseal Rat.add Rat.sub Rat.mul Rat.inv Rat.ofScientific in
/-- C9 counterexample: a CSV data line has the five fields id, wallet_id,
type, amount, created_at and no sixth counterparty_wallet_id field (the
schema has no such column), so it never equals the six-field row the
claim specifies; moreover with identical filters the list page can be
shorter than the export (limit 1 on a two-row store), so the row sets are
not always identical. -/
theorem C9_counterexample :
    (¬ ∃ cp : Option String, csvFields txD = specCsvFields txD cp)
    ∧ (transactions_list fixC9b none none none 1 0).items.length = 1
    ∧ (exportRows fixC9b none none none).length = 2 := by
  refine ⟨?_, by decide, by decide⟩
  rintro ⟨cp, h⟩
  have h6 := congrArg List.length h
  simp [csvFields, specCsvFields] at h6

/-- C9 amended: for identical filters, when the page covers the whole
result set (offset 0, limit 500, at most 500 matching rows) the rows of
the CSV export are exactly the items of transactions_list in the same
order, and the export body is the header followed by those items
serialized as the five comma-separated fields id, wallet_id, type,
amount, created_at (no counterparty column exists). -/
theorem C9_amended (s : Store) (wid : Option String) (df dt : Option ℕ)
    (h : (s.transactions.filter (txMatches wid df dt)).length ≤ 500) :
    (transactions_list s wid df dt 500 0).items = exportRows s wid df dt
    ∧ transactions_export s wid df dt
        = csvHeader ++ String.join ((transactions_list s wid df dt 500 0).items.map csvLine) := by
  have h1 : (transactions_list s wid df dt 500 0).items = exportRows s wid df dt := by
    simp only [transactions_list, exportRows]
    have e1 : ((max 0 (0 : ℤ)).toNat) = 0 := by decide
    have e2 : ((max 1 (min (500 : ℤ) 500)).toNat) = 500 := by decide
    rw [e1, e2, List.drop_zero,
      List.take_of_length_le (by rw [(sortDesc_perm _).length_eq]; exact h)]
  exact ⟨h1, by rw [h1]; rfl⟩

set_option maxRecDepth 10000 in
unseal Rat.add Rat.sub Rat.mul Rat.inv Rat.ofScientific in
/-- C9 amended witness: the one-row store fixC9. -/
theorem C9_amended_witness :
    (transactions_list fixC9 none none none 500 0).items = exportRows fixC9 none none none
    ∧ transactions_export fixC9 none none none
        = csvHeader
          ++ String.join ((transactions_list fixC9 none none none 500 0).items.map csvLine) :=
  C9_amended fixC9 none none none (by decide)

/-- C10 amended witness: key "g" tags a deposit of 7 on wallet "v"; the
deposit and withdraw replays on the different wallet "w" (balance 50) with
the different amount 10 return the current balance of "w". -/
theorem C10_amended_witness :
    wallet_deposit fixC10w "w" 10 (some "g") "t1" 2
      = (fixC10w, .okIdempotent ⟨"w", (balanceOf fixC10w "w").getD 0⟩)
    ∧ wallet_withdraw fixC10w "w" 10 (some "g") "t1" 2
      = (fixC10w, .okIdempotent ⟨"w", 50⟩) :=
  have h := C10_amended fixC10w "w" 10 "g" "t1" 2 ⟨"t0", "v", "deposit", 7, 1, some "g"⟩
    (by decide) rfl (by decide) (by decide)
  ⟨h.1, h.2.1 50 (by decide) (by decide)⟩

end NonoWallet
